import Mathlib

/-!
Verification of the rule-based risk scoring engine and explanation cache of the
payment-gateway proxy.  The definitions below are a shallow embedding of
`src/services/fraud.service.ts` and `src/services/llm.service.ts`:

* Rule conditions are JavaScript expression strings compiled with
  `new Function(...Object.keys(variables), "return (<condition>);")`.  We embed
  the parsed form of such expressions as the inductive `Expr`; a string that
  fails to parse (for which `new Function` throws a `SyntaxError`) is the
  `Cond.malformed` case.  A function created by `new Function` runs in the
  JavaScript global scope, so free names of the expression body that are not
  among the parameters resolve against the global object; the evaluator
  therefore carries both a local and a global environment.
* JavaScript numbers are modelled as rationals (`ℚ`), `Math.round` as
  floor-of-plus-half (JavaScript rounds halves towards positive infinity) and
  `Math.min` as `min` on integers.
* Exceptions are modelled with `Except`; a `try { … } catch { … }` block is a
  `match` on the `Except` value.
-/

/-- JavaScript `Math.round`: rounds to the nearest integer, halves towards
positive infinity. -/
def jsRound (q : ℚ) : ℤ := ⌊q + 1/2⌋

/-- Identifiers of the two derived predicates bound into the transaction
context by `calculateRiskScore` (`fraud.service.ts` lines 99–110). -/
inductive PredId
  | risky
  | currencySupported
deriving DecidableEq, Repr

/-- JavaScript runtime values occurring during rule-condition evaluation:
numbers, strings, booleans, `undefined`, and the two predicate closures. -/
inductive Value
  | num (q : ℚ)
  | str (s : String)
  | bool (b : Bool)
  | undef
  | pred (p : PredId)
deriving DecidableEq, Repr

/-- JavaScript truthiness (`ToBoolean`): used when the value returned by the
compiled condition is consumed by `if (isTriggered)`. -/
def toBool : Value → Bool
  | .num q => decide (q ≠ 0)
  | .str s => decide (s ≠ "")
  | .bool b => b
  | .undef => false
  | .pred _ => true

/-- Comparison and equality operators usable inside rule conditions. -/
inductive BinOp
  | gt
  | lt
  | ge
  | le
  | eq
  | ne
deriving DecidableEq, Repr

/-- Parsed rule-condition expressions: literals, name references, one-argument
calls (the predicates take one argument), comparisons and boolean
connectives. -/
inductive Expr
  | lit (v : Value)
  | var (name : String)
  | app (f : Expr) (a : Expr)
  | bin (op : BinOp) (l r : Expr)
  | and (l r : Expr)
  | or (l r : Expr)
  | not (e : Expr)
deriving DecidableEq, Repr

/-- Errors a condition evaluation can raise: `SyntaxError` from `new Function`
on an unparseable condition, `ReferenceError` for an unresolvable name, and
`TypeError` (calling a non-function, or a method of `undefined`). -/
inductive EvalErr
  | parseError
  | refError
  | typeError
deriving DecidableEq, Repr

/-- JavaScript `String.prototype.split` with a single-character separator,
on the character list of the string: `"a@b@c".split("@") = ["a","b","c"]`,
`"".split("@") = [""]`, `"a@".split("@") = ["a",""]`. -/
def jsSplit (sep : Char) : List Char → List (List Char)
  | [] => [[]]
  | c :: cs =>
    match jsSplit sep cs with
    | [] => [[]]
    | seg :: segs => if c = sep then [] :: seg :: segs else (c :: seg) :: segs

/-- Embeds the `isRiskyDomain` helper of `calculateRiskScore`
(`fraud.service.ts` lines 100–105):
`const domain = email.toLowerCase().split('@')[1];`
`return riskyDomains.some(rd => domain.endsWith(rd.toLowerCase()));`
Index `[1]` of the split is the segment after the *first* `@`.  When the email
contains no `@` at all, `split('@')[1]` is `undefined` and
`undefined.endsWith` throws a `TypeError`; that outcome is `none`. -/
def jsIsRiskyDomain (riskyDomains : List String) (email : String) : Option Bool :=
  match (jsSplit '@' (email.toList.map Char.toLower))[1]? with
  | none => none
  | some domain =>
    some (riskyDomains.any fun rd => (rd.toList.map Char.toLower).isSuffixOf domain)

/-- JavaScript `String.prototype.toLowerCase` (ASCII range), as a map over the
character list. -/
def jsToLower (s : String) : String := ⟨s.data.map Char.toLower⟩

/-- JavaScript `String.prototype.toUpperCase` (ASCII range), as a map over the
character list. -/
def jsToUpper (s : String) : String := ⟨s.data.map Char.toUpper⟩

/-- Embeds the `isSupportedCurrency` helper of `calculateRiskScore`
(`fraud.service.ts` lines 108–110):
`return supportedCurrencies.includes(currency.toUpperCase());`. -/
def jsIsSupportedCurrency (supportedCurrencies : List String) (currency : String) : Bool :=
  supportedCurrencies.contains (jsToUpper currency)

/-- The environment a compiled condition runs in: the function parameters
(`variables`), the ambient JavaScript global scope, and the two configuration
lists captured by the predicate closures. -/
structure EvalEnv where
  locals : List (String × Value)
  globals : List (String × Value)
  riskyDomains : List String
  supportedCurrencies : List String
deriving Repr

/-- Name resolution inside a `new Function` body: parameters shadow globals;
a name bound in neither scope raises a `ReferenceError`. -/
def lookupName (env : EvalEnv) (n : String) : Except EvalErr Value :=
  match env.locals.lookup n with
  | some v => .ok v
  | none =>
    match env.globals.lookup n with
    | some v => .ok v
    | none => .error .refError

/-- Applying one of the two predicate closures to an argument value.
`isRiskyDomain` propagates the `TypeError` of `undefined.endsWith` when the
email has no `@`; a non-string argument makes `.toLowerCase()` /
`.toUpperCase()` throw. -/
def applyPred (env : EvalEnv) : PredId → Value → Except EvalErr Value
  | .risky, .str s =>
    match jsIsRiskyDomain env.riskyDomains s with
    | none => .error .typeError
    | some b => .ok (.bool b)
  | .risky, _ => .error .typeError
  | .currencySupported, .str s => .ok (.bool (jsIsSupportedCurrency env.supportedCurrencies s))
  | .currencySupported, _ => .error .typeError

/-- Semantics of the comparison operators on like-typed operands (the
fragment exercised by rule conditions). -/
def evalBin : BinOp → Value → Value → Except EvalErr Value
  | .gt, .num a, .num b => .ok (.bool (decide (b < a)))
  | .lt, .num a, .num b => .ok (.bool (decide (a < b)))
  | .ge, .num a, .num b => .ok (.bool (decide (b ≤ a)))
  | .le, .num a, .num b => .ok (.bool (decide (a ≤ b)))
  | .eq, a, b => .ok (.bool (decide (a = b)))
  | .ne, a, b => .ok (.bool (decide (a ≠ b)))
  | _, _, _ => .error .typeError

/-- Evaluation of a parsed condition expression.  `&&` and `||` are
short-circuiting and value-returning as in JavaScript; calling a non-function
value raises a `TypeError`. -/
def evalExpr (env : EvalEnv) : Expr → Except EvalErr Value
  | .lit v => .ok v
  | .var n => lookupName env n
  | .app f a => do
    let fv ← evalExpr env f
    let av ← evalExpr env a
    match fv with
    | .pred p => applyPred env p av
    | _ => .error .typeError
  | .bin op l r => do
    let lv ← evalExpr env l
    let rv ← evalExpr env r
    evalBin op lv rv
  | .and l r => do
    let lv ← evalExpr env l
    if toBool lv then evalExpr env r else pure lv
  | .or l r => do
    let lv ← evalExpr env l
    if toBool lv then pure lv else evalExpr env r
  | .not e => do
    let v ← evalExpr env e
    pure (.bool (!toBool v))

/-- A rule condition as stored in the configuration: either it parses to an
expression, or `new Function` rejects it with a `SyntaxError`. -/
inductive Cond
  | parsed (e : Expr)
  | malformed
deriving DecidableEq, Repr

/-- Embeds `FraudService.evaluateCondition` (`fraud.service.ts` lines 53–65):
compile the condition and run it on the variable values; any thrown error is
caught and the method returns `false`.  The raw result value feeds the
truthiness test of `if (isTriggered)`. -/
def evaluateCondition (env : EvalEnv) (cond : Cond) : Bool :=
  match cond with
  | .malformed => false
  | .parsed e =>
    match evalExpr env e with
    | .ok v => toBool v
    | .error _ => false

/-- A fraud rule as loaded from `fraudRules.json` (`FraudRule` interface):
label, condition string (here in parsed form) and score. -/
structure FraudRule where
  label : String
  condition : Cond
  score : ℚ
deriving DecidableEq, Repr

/-- The charge request fields used by risk scoring (`ChargeRequest`). -/
structure ChargeRequest where
  amount : ℚ
  currency : String
  source : String
  email : String
deriving DecidableEq, Repr

/-- The result of `calculateRiskScore` (`RiskScoreResult`). -/
structure RiskScoreResult where
  riskScore : ℚ
  riskPercentage : ℤ
  isHighRisk : Bool
  triggeredRules : List String
deriving DecidableEq, Repr

/-- `FRAUD_SCORING.HIGH_RISK_THRESHOLD` from `app.constants.ts`. -/
def HIGH_RISK_THRESHOLD : ℚ := 1/2

/-- The `variables` object built by `calculateRiskScore`
(`fraud.service.ts` lines 113–120): the four transaction fields plus the two
predicate closures. -/
def transactionVariables (c : ChargeRequest) : List (String × Value) :=
  [("amount", .num c.amount),
   ("currency", .str c.currency),
   ("source", .str c.source),
   ("email", .str c.email),
   ("isRiskyDomain", .pred .risky),
   ("isSupportedCurrency", .pred .currencySupported)]

/-- The rule-evaluation loop of `calculateRiskScore`
(`fraud.service.ts` lines 122–131): for each rule in order, if its condition
evaluates truthy, add its score to the running total and append its label. -/
def scoreRules (env : EvalEnv) : List FraudRule → ℚ × List String
  | [] => (0, [])
  | ru :: rest =>
    let r := scoreRules env rest
    if evaluateCondition env ru.condition then (ru.score + r.1, ru.label :: r.2) else r

/-- The body of `calculateRiskScore` after configuration loading
(`fraud.service.ts` lines 90–148): score the rules, compute
`riskPercentage = Math.min(Math.round(riskScore), 100)` (note: the raw score
sum is rounded, with no multiplication by 100 and no lower clamp), recompute
`riskScore = riskPercentage / 100`, and classify
`isHighRisk = riskScore >= HIGH_RISK_THRESHOLD`. -/
def calculateRiskScoreOk (rules : List FraudRule) (riskyDomains supportedCurrencies : List String)
    (globals : List (String × Value)) (c : ChargeRequest) : RiskScoreResult :=
  let env : EvalEnv := ⟨transactionVariables c, globals, riskyDomains, supportedCurrencies⟩
  let r := scoreRules env rules
  let riskPercentage : ℤ := min (jsRound r.1) 100
  let riskScore : ℚ := (riskPercentage : ℚ) / 100
  { riskScore := riskScore
    riskPercentage := riskPercentage
    isHighRisk := decide (HIGH_RISK_THRESHOLD ≤ riskScore)
    triggeredRules := r.2 }

/-- Failure points inside the `try` block of `calculateRiskScore`: the rule
configuration (`loadFraudRules`), and the two `ConfigLoader` reads for risky
domains and active currencies. -/
inductive ScoringError
  | ruleConfig
  | riskyDomainsConfig
  | currenciesConfig
deriving DecidableEq, Repr

/-- The state of the rule configuration source `fraudRules.json`: absent,
present but unparseable, or a parseable document with its rule list. -/
inductive RuleSource
  | missing
  | malformed
  | available (rules : List FraudRule)

/-- Embeds `FraudService.loadFraudRules` (`fraud.service.ts` lines 18–41):
return the cached rule list when present; otherwise read and parse the
configuration source, throwing
`Error('Failed to load fraud rules configuration')` when it is missing or
malformed. -/
def loadFraudRules (cached : Option (List FraudRule)) :
    RuleSource → Except ScoringError (List FraudRule)
  | src =>
    match cached with
    | some rules => .ok rules
    | none =>
      match src with
      | .available rules => .ok rules
      | .missing => .error .ruleConfig
      | .malformed => .error .ruleConfig

/-- Embeds `FraudService.reloadRules` (`fraud.service.ts` lines 168–172):
discard the cache (`this.fraudRules = null`) and load again; a load failure
is not caught and rejects the returned promise. -/
def reloadRules (src : RuleSource) : Except ScoringError (List FraudRule) :=
  loadFraudRules none src

/-- The `try` block of `calculateRiskScore` (`fraud.service.ts` lines 86–148)
as an exception-propagating computation: load the rules, load the risky-domain
and currency configuration, then run the total scoring body. -/
def calculateRiskScoreE (cached : Option (List FraudRule)) (src : RuleSource)
    (riskyE currE : Except ScoringError (List String))
    (globals : List (String × Value)) (c : ChargeRequest) :
    Except ScoringError RiskScoreResult := do
  let rules ← loadFraudRules cached src
  let riskyDomains ← riskyE
  let supportedCurrencies ← currE
  pure (calculateRiskScoreOk rules riskyDomains supportedCurrencies globals c)

/-- The safe-default result returned by the `catch` block of
`calculateRiskScore` (`fraud.service.ts` lines 153–158). -/
def safeDefaultResult : RiskScoreResult :=
  { riskScore := 0, riskPercentage := 0, isHighRisk := false, triggeredRules := [] }

/-- Embeds `FraudService.calculateRiskScore` (`fraud.service.ts` lines
85–160): run the scoring body and catch any thrown error, returning the
safe-default zero-risk result.  The function is total: no error escapes. -/
def calculateRiskScore (cached : Option (List FraudRule)) (src : RuleSource)
    (riskyE currE : Except ScoringError (List String))
    (globals : List (String × Value)) (c : ChargeRequest) : RiskScoreResult :=
  match calculateRiskScoreE cached src riskyE currE globals c with
  | .ok r => r
  | .error _ => safeDefaultResult

example :
    jsIsRiskyDomain [".ru"] "a@b.ru@c.com" = some true := by decide

example :
    jsIsRiskyDomain [".ru", ".xyz"] "plainaddress" = none := by decide

example :
    jsIsRiskyDomain [".ru"] "test@EXAMPLE.RU" = some true := by decide

example :
    jsIsRiskyDomain [".ru"] "test@" = some false := by decide

/-- Lexicographic less-or-equal on character lists, the order JavaScript's
default `Array.prototype.sort` comparator induces on strings (elementwise
code-unit comparison). -/
def lexLe : List Char → List Char → Bool
  | [], _ => true
  | _ :: _, [] => false
  | a :: as, b :: bs => if a < b then true else if b < a then false else lexLe as bs

/-- String comparison used by the JavaScript default sort. -/
def jsStringLe (a b : String) : Bool := lexLe a.data b.data

/-- The sort relation of the JavaScript default sort, as a proposition. -/
def jsLeProp (a b : String) : Prop := jsStringLe a b = true

instance : DecidableRel jsLeProp :=
  fun a b => inferInstanceAs (Decidable (jsStringLe a b = true))

/-- JavaScript `Map.prototype.set` on an insertion-ordered association list:
replace in place when the key exists, otherwise append at the end. -/
def mapSet : List (String × String) → String → String → List (String × String)
  | [], k, v => [(k, v)]
  | (k', v') :: rest, k, v =>
    if k' = k then (k, v) :: rest else (k', v') :: mapSet rest k v

/-- Embeds `LLMService.generateCacheKey` (`llm.service.ts` lines 47–58):
sort a copy of the triggered rules (JavaScript default sort: lexicographic by
code units) and join the parts with `-` and the rules with `|`. -/
def generateCacheKey (amount : ℚ) (currency email : String)
    (triggeredRules : List String) : String :=
  let sortedRules := List.insertionSort jsLeProp triggeredRules
  toString amount ++ "-" ++ currency ++ "-" ++ email ++ "-" ++
    String.intercalate "|" sortedRules

/-- Embeds `LLMService.generateFallbackExplanation` (`llm.service.ts` lines
166–177): a deterministic string built from
`Math.round(riskScore * 100)` and the triggered-rule labels. -/
def generateFallbackExplanation (riskScore : ℚ) (triggeredRules : List String) : String :=
  let riskPercentage := jsRound (riskScore * 100)
  if triggeredRules = [] then
    "Transaction appears safe with " ++ toString riskPercentage ++
      "% risk score and no specific risk factors detected."
  else
    "Transaction flagged with " ++ toString riskPercentage ++ "% risk due to " ++
      jsToLower (String.intercalate ", " triggeredRules) ++ "."

/-- Outcome of one attempt at the external text-generation call
(`openai.chat.completions.create` plus content extraction): either the call
throws, or it yields the trimmed content string, with the empty string also
standing for an `undefined` content (both are falsy at the `||` that selects
the fallback). -/
def GenOutcome : Type := Except Unit String

/-- Result of one `generateFraudExplanation` call: the returned string, the
cache state afterwards, and whether the external provider was invoked. -/
structure ExplainResult where
  text : String
  cache : List (String × String)
  invokedProvider : Bool
deriving DecidableEq, Repr

/-- Embeds `LLMService.generateFraudExplanation` (`llm.service.ts` lines
81–154): compute the cache key; on a hit return the cached string without
calling the provider; on a miss invoke the provider and cache-and-return its
content when truthy, the deterministic fallback otherwise; when the provider
throws, the `catch` block caches and returns the fallback under the same
key. -/
def generateFraudExplanation (gen : GenOutcome) (cache : List (String × String))
    (amount : ℚ) (currency email : String) (riskScore : ℚ)
    (triggeredRules : List String) : ExplainResult :=
  let cacheKey := generateCacheKey amount currency email triggeredRules
  match cache.lookup cacheKey with
  | some cached => { text := cached, cache := cache, invokedProvider := false }
  | none =>
    match gen with
    | .ok s =>
      let finalExplanation :=
        if s = "" then generateFallbackExplanation riskScore triggeredRules else s
      { text := finalExplanation
        cache := mapSet cache cacheKey finalExplanation
        invokedProvider := true }
    | .error _ =>
      let fallback := generateFallbackExplanation riskScore triggeredRules
      { text := fallback
        cache := mapSet cache cacheKey fallback
        invokedProvider := true }

/-- Embeds `LLMService.clearCache` (`llm.service.ts` lines 185–188). -/
def clearCache : List (String × String) := []

/-- Embeds `LLMService.getCacheSize` (`llm.service.ts` lines 198–200). -/
def getCacheSize (cache : List (String × String)) : ℕ := cache.length

example :
    generateCacheKey 100 "USD" "a@b.com" ["B", "A"] = "100-USD-a@b.com-A|B" := by
  with_unfolding_all decide

example :
    generateCacheKey 100 "USD" "a@b.com" ["A|B"] = "100-USD-a@b.com-A|B" := by
  with_unfolding_all decide

example :
    generateFallbackExplanation (1/2) ["High Amount"] =
      "Transaction flagged with 50% risk due to high amount." := by
  with_unfolding_all decide

/-! ### Supporting lemmas -/

theorem lexLe_cons {a b : Char} {as bs : List Char} :
    lexLe (a :: as) (b :: bs) = true ↔ a < b ∨ (a = b ∧ lexLe as bs = true) := by
  by_cases h1 : a < b
  · simp [lexLe, h1]
  · by_cases h2 : b < a
    · have hne : a ≠ b := fun h => absurd (h ▸ h2) (lt_irrefl a)
      simp [lexLe, h1, h2, hne]
    · have heq : a = b := le_antisymm (not_lt.mp h2) (not_lt.mp h1)
      simp [lexLe, h1, h2, heq]

theorem lexLe_total (as bs : List Char) : lexLe as bs = true ∨ lexLe bs as = true := by
  induction as generalizing bs with
  | nil => exact .inl rfl
  | cons a as ih =>
    cases bs with
    | nil => exact .inr rfl
    | cons b bs =>
      rcases lt_trichotomy a b with h | h | h
      · exact .inl (lexLe_cons.mpr (.inl h))
      · rcases ih bs with h' | h'
        · exact .inl (lexLe_cons.mpr (.inr ⟨h, h'⟩))
        · exact .inr (lexLe_cons.mpr (.inr ⟨h.symm, h'⟩))
      · exact .inr (lexLe_cons.mpr (.inl h))

theorem lexLe_trans {as bs cs : List Char} (h1 : lexLe as bs = true)
    (h2 : lexLe bs cs = true) : lexLe as cs = true := by
  induction as generalizing bs cs with
  | nil => rfl
  | cons a as ih =>
    cases bs with
    | nil => simp [lexLe] at h1
    | cons b bs =>
      cases cs with
      | nil => simp [lexLe] at h2
      | cons c cs =>
        rcases lexLe_cons.mp h1 with hab | ⟨hab, h1'⟩ <;>
          rcases lexLe_cons.mp h2 with hbc | ⟨hbc, h2'⟩
        · exact lexLe_cons.mpr (.inl (lt_trans hab hbc))
        · exact lexLe_cons.mpr (.inl (lt_of_lt_of_le hab hbc.le))
        · exact lexLe_cons.mpr (.inl (lt_of_le_of_lt hab.le hbc))
        · exact lexLe_cons.mpr (.inr ⟨hab.trans hbc, ih h1' h2'⟩)

theorem lexLe_antisymm {as bs : List Char} (h1 : lexLe as bs = true)
    (h2 : lexLe bs as = true) : as = bs := by
  induction as generalizing bs with
  | nil =>
    cases bs with
    | nil => rfl
    | cons b bs => simp [lexLe] at h2
  | cons a as ih =>
    cases bs with
    | nil => simp [lexLe] at h1
    | cons b bs =>
      rcases lexLe_cons.mp h1 with hab | ⟨hab, h1'⟩
      · rcases lexLe_cons.mp h2 with hba | ⟨hba, _⟩
        · exact absurd hba (lt_asymm hab)
        · cases hba; exact absurd hab (lt_irrefl a)
      · rcases lexLe_cons.mp h2 with hba | ⟨hba, h2'⟩
        · cases hab; exact absurd hba (lt_irrefl a)
        · cases hab; rw [ih h1' h2']

instance : IsTotal String jsLeProp := ⟨fun a b => lexLe_total a.data b.data⟩

instance : IsTrans String jsLeProp := ⟨fun _ _ _ => lexLe_trans⟩

instance : IsAntisymm String jsLeProp :=
  ⟨fun _ _ h1 h2 => String.toList_inj.mp (lexLe_antisymm h1 h2)⟩

theorem insertionSort_eq_of_perm {l1 l2 : List String} (h : l1.Perm l2) :
    List.insertionSort jsLeProp l1 = List.insertionSort jsLeProp l2 :=
  List.eq_of_perm_of_sorted
    ((List.perm_insertionSort jsLeProp l1).trans
      (h.trans (List.perm_insertionSort jsLeProp l2).symm))
    (List.sorted_insertionSort jsLeProp l1)
    (List.sorted_insertionSort jsLeProp l2)

theorem toLower_eq_commat {c : Char} (h : c.toLower = '@') : c = '@' := by
  unfold Char.toLower at h
  simp only [] at h
  by_cases hc : c.toNat ≥ 65 ∧ c.toNat ≤ 90
  · rw [if_pos hc] at h
    exfalso
    have hvalid : (c.toNat + 32).isValidChar := by
      left
      show c.toNat + 32 < 55296
      omega
    have hval : (Char.ofNat (c.toNat + 32)).toNat = c.toNat + 32 := by
      rw [Char.ofNat, dif_pos hvalid]
      rfl
    have h64 : (Char.ofNat (c.toNat + 32)).toNat = 64 := by rw [h]; rfl
    omega
  · rw [if_neg hc] at h
    exact h

theorem not_mem_map_toLower_commat {l : List Char} (h : '@' ∉ l) :
    '@' ∉ l.map Char.toLower := by
  intro hmem
  rcases List.mem_map.mp hmem with ⟨c, hc, hlow⟩
  exact h (toLower_eq_commat hlow ▸ hc)

theorem jsSplit_no_sep {sep : Char} {l : List Char} (h : sep ∉ l) :
    jsSplit sep l = [l] := by
  induction l with
  | nil => rfl
  | cons c cs ih =>
    have hc : c ≠ sep := fun hc => h (hc ▸ List.mem_cons_self c cs)
    have hcs : sep ∉ cs := fun hm => h (List.mem_cons_of_mem c hm)
    simp [jsSplit, ih hcs, hc]

theorem scoreRules_fst_eq (env : EvalEnv) (rules : List FraudRule) :
    (scoreRules env rules).1 =
      ((rules.filter fun ru => evaluateCondition env ru.condition).map FraudRule.score).sum := by
  induction rules with
  | nil => simp [scoreRules]
  | cons ru rest ih =>
    by_cases h : evaluateCondition env ru.condition <;>
      simp [scoreRules, List.filter_cons, h, ih]

theorem scoreRules_snd_eq (env : EvalEnv) (rules : List FraudRule) :
    (scoreRules env rules).2 =
      (rules.filter fun ru => evaluateCondition env ru.condition).map FraudRule.label := by
  induction rules with
  | nil => simp [scoreRules]
  | cons ru rest ih =>
    by_cases h : evaluateCondition env ru.condition <;>
      simp [scoreRules, List.filter_cons, h, ih]

theorem scoreRules_middle {env : EvalEnv} {ru : FraudRule}
    (h : evaluateCondition env ru.condition = false) (rules₁ rules₂ : List FraudRule) :
    scoreRules env (rules₁ ++ ru :: rules₂) = scoreRules env (rules₁ ++ rules₂) := by
  induction rules₁ with
  | nil => simp [scoreRules, h]
  | cons r rest ih => simp [scoreRules, ih]

theorem scoreRules_mem_labels {env : EvalEnv} {rules : List FraudRule} {s : String}
    (h : s ∈ (scoreRules env rules).2) : s ∈ rules.map FraudRule.label := by
  rw [scoreRules_snd_eq] at h
  rcases List.mem_map.mp h with ⟨ru, hmem, hlab⟩
  exact List.mem_map.mpr ⟨ru, List.mem_of_mem_filter hmem, hlab⟩

theorem scoreRules_fst_nonneg {env : EvalEnv} {rules : List FraudRule}
    (hw : ∀ ru ∈ rules, 0 ≤ ru.score) : 0 ≤ (scoreRules env rules).1 := by
  rw [scoreRules_fst_eq]
  apply List.sum_nonneg
  intro q hq
  rcases List.mem_map.mp hq with ⟨ru, hmem, hsc⟩
  exact hsc ▸ hw ru (List.mem_of_mem_filter hmem)

/-- Decides whether evaluating a condition raises an error that the
`catch` block of `evaluateCondition` swallows. -/
def condFails (env : EvalEnv) : Cond → Bool
  | .malformed => true
  | .parsed e =>
    match evalExpr env e with
    | .error _ => true
    | .ok _ => false

theorem evaluateCondition_eq_false_of_condFails {env : EvalEnv} {c : Cond}
    (h : condFails env c = true) : evaluateCondition env c = false := by
  cases c with
  | malformed => rfl
  | parsed e =>
    simp only [condFails] at h
    simp only [evaluateCondition]
    cases hv : evalExpr env e with
    | ok v => rw [hv] at h; exact absurd h (by simp)
    | error err => rfl

/-- The names an expression references (the free names of the compiled
function body). -/
def freeNames : Expr → List String
  | .lit _ => []
  | .var n => [n]
  | .app f a => freeNames f ++ freeNames a
  | .bin _ l r => freeNames l ++ freeNames r
  | .and l r => freeNames l ++ freeNames r
  | .or l r => freeNames l ++ freeNames r
  | .not e => freeNames e

theorem applyPred_globals {locals g1 g2 : List (String × Value)}
    {rd sc : List String} (p : PredId) (v : Value) :
    applyPred ⟨locals, g1, rd, sc⟩ p v = applyPred ⟨locals, g2, rd, sc⟩ p v := by
  cases p <;> cases v <;> rfl

theorem evalExpr_globals_irrelevant {locals g1 g2 : List (String × Value)}
    {rd sc : List String} {e : Expr}
    (h : ∀ n ∈ freeNames e, (locals.lookup n).isSome) :
    evalExpr ⟨locals, g1, rd, sc⟩ e = evalExpr ⟨locals, g2, rd, sc⟩ e := by
  induction e with
  | lit v => rfl
  | var n =>
    have hn : (locals.lookup n).isSome := h n (by simp [freeNames])
    unfold evalExpr lookupName
    simp only []
    cases hv : locals.lookup n with
    | some v => rfl
    | none => rw [hv] at hn; exact absurd hn (by simp)
  | app f a ihf iha =>
    have hf := ihf fun n hn => h n (by simp [freeNames, hn])
    have ha := iha fun n hn => h n (by simp [freeNames, hn])
    simp only [evalExpr]
    rw [hf, ha]
    refine congrArg (Bind.bind _) (funext fun fv => ?_)
    refine congrArg (Bind.bind _) (funext fun av => ?_)
    cases fv with
    | pred p => exact applyPred_globals p av
    | num q => rfl
    | str s => rfl
    | bool b => rfl
    | undef => rfl
  | bin op l r ihl ihr =>
    have hl := ihl fun n hn => h n (by simp [freeNames, hn])
    have hr := ihr fun n hn => h n (by simp [freeNames, hn])
    simp only [evalExpr]
    rw [hl, hr]
  | and l r ihl ihr =>
    have hl := ihl fun n hn => h n (by simp [freeNames, hn])
    have hr := ihr fun n hn => h n (by simp [freeNames, hn])
    simp only [evalExpr]
    rw [hl, hr]
  | or l r ihl ihr =>
    have hl := ihl fun n hn => h n (by simp [freeNames, hn])
    have hr := ihr fun n hn => h n (by simp [freeNames, hn])
    simp only [evalExpr]
    rw [hl, hr]
  | not e ihe =>
    have he := ihe fun n hn => h n (by simp [freeNames, hn])
    simp only [evalExpr]
    rw [he]

theorem jsRound_nonneg {q : ℚ} (h : 0 ≤ q) : 0 ≤ jsRound q := by
  apply Int.le_floor.mpr
  push_cast
  linarith

theorem jsRound_ge_100 {q : ℚ} (h : 100 < q) : (100 : ℤ) ≤ jsRound q := by
  apply Int.le_floor.mpr
  push_cast
  linarith

theorem calculateRiskScore_eq_ok {cached : Option (List FraudRule)} {src : RuleSource}
    {rules : List FraudRule} (rd sc : List String) (g : List (String × Value))
    (c : ChargeRequest) (hload : loadFraudRules cached src = .ok rules) :
    calculateRiskScore cached src (.ok rd) (.ok sc) g c = calculateRiskScoreOk rules rd sc g c := by
  simp only [calculateRiskScore, calculateRiskScoreE, hload]
  rfl

theorem lookup_mapSet_self (m : List (String × String)) (k v : String) :
    (mapSet m k v).lookup k = some v := by
  induction m with
  | nil => simp [mapSet, List.lookup]
  | cons kv rest ih =>
    by_cases h : kv.1 = k
    · simp [mapSet, h, List.lookup]
    · have hne : (k == kv.1) = false := beq_eq_false_iff_ne.mpr (Ne.symm h)
      simp [mapSet, h, List.lookup, hne, ih]

theorem length_mapSet_le (m : List (String × String)) (k v : String) :
    (mapSet m k v).length ≤ m.length + 1 := by
  induction m with
  | nil => simp [mapSet]
  | cons kv rest ih =>
    by_cases h : kv.1 = k
    · simp [mapSet, h]
    · simpa [mapSet, h] using ih

theorem explain_lookup_after (gen : GenOutcome) (cache : List (String × String))
    (amount : ℚ) (currency email : String) (riskScore : ℚ) (t : List String) :
    ((generateFraudExplanation gen cache amount currency email riskScore t).cache).lookup
        (generateCacheKey amount currency email t)
      = some (generateFraudExplanation gen cache amount currency email riskScore t).text := by
  unfold generateFraudExplanation
  cases hl : cache.lookup (generateCacheKey amount currency email t) with
  | some v => simp [hl]
  | none =>
    cases gen with
    | ok s => simp [hl, lookup_mapSet_self]
    | error u => simp [hl, lookup_mapSet_self]

theorem explain_cache_length_le (gen : GenOutcome) (cache : List (String × String))
    (amount : ℚ) (currency email : String) (riskScore : ℚ) (t : List String) :
    (generateFraudExplanation gen cache amount currency email riskScore t).cache.length
      ≤ cache.length + 1 := by
  unfold generateFraudExplanation
  cases hl : cache.lookup (generateCacheKey amount currency email t) with
  | some v => simp [hl]
  | none =>
    cases gen with
    | ok s => simp [hl, length_mapSet_le]
    | error u => simp [hl, length_mapSet_le]

/-! ### Concrete fixtures used by witnesses and counterexamples -/

/-- Condition `amount > 5000`, the high-amount rule of the shipped
configuration. -/
def highAmountCond : Expr := .bin .gt (.var "amount") (.lit (.num 5000))

/-- A high-amount rule with fractional weight 0.3 (weights in `[0,1]` as the
data model describes them). -/
def highAmountRuleFrac : FraudRule :=
  { label := "High Amount", condition := .parsed highAmountCond, score := 3/10 }

/-- A high-amount rule with integer weight 30 (percentage points). -/
def ruleHighAmount : FraudRule :=
  { label := "High Amount", condition := .parsed highAmountCond, score := 30 }

/-- A rule whose condition does not parse (`new Function` throws). -/
def brokenRule : FraudRule :=
  { label := "Broken Rule", condition := .malformed, score := 1/2 }

/-- A charge with a high amount and unremarkable data. -/
def chargeStd : ChargeRequest :=
  { amount := 6000, currency := "USD", source := "stripe", email := "a@b.com" }

/-- A charge whose email has no `@` at all. -/
def chargeNoAt : ChargeRequest :=
  { amount := 100, currency := "USD", source := "stripe", email := "plainaddress" }

/-! ### Spec-side definitions (for comparison against the code) -/

/-- The sum of the weights of the rules whose conditions trigger for a charge,
as the spec describes the aggregate. -/
def triggeredWeightSum (rules : List FraudRule) (rd sc : List String)
    (g : List (String × Value)) (c : ChargeRequest) : ℚ :=
  ((rules.filter fun ru =>
      evaluateCondition ⟨transactionVariables c, g, rd, sc⟩ ru.condition).map
    FraudRule.score).sum

/-- Follows the spec's words (§4.3 step 2) for the risky-domain predicate:
lower-case the email, take the substring after the *last* `@` as domain,
return `false` if no domain segment exists, and otherwise return whether the
domain ends with some configured risky suffix (compared lower-cased). -/
def specIsRiskyDomain (riskyDomains : List String) (email : String) : Bool :=
  match jsSplit '@' (email.toList.map Char.toLower) with
  | [] => false
  | [_] => false
  | segs =>
    match segs.getLast? with
    | none => false
    | some domain => riskyDomains.any fun rd => (rd.toList.map Char.toLower).isSuffixOf domain

/-! ### Claims -/

/-- Claim C1, counterexample.  The claim states that for weights in `[0,1]`
the result satisfies `riskPercentage == round(100 * sum of triggered weights)`
clamped to `[0,100]`.  With the single triggered rule of weight `0.3`
(`sum = 0.3`, claimed percentage `30`), the code produces `riskPercentage = 0`:
line 134 of `fraud.service.ts` computes `Math.min(Math.round(riskScore), 100)`
without multiplying the raw sum by 100. -/
theorem riskPercentage_not_hundred_times_sum :
    (∀ ru ∈ [highAmountRuleFrac], 0 ≤ ru.score ∧ ru.score ≤ 1) ∧
    (calculateRiskScore none (.available [highAmountRuleFrac]) (.ok [".ru"]) (.ok ["USD"]) []
        chargeStd).triggeredRules = ["High Amount"] ∧
    triggeredWeightSum [highAmountRuleFrac] [".ru"] ["USD"] [] chargeStd = 3/10 ∧
    (calculateRiskScore none (.available [highAmountRuleFrac]) (.ok [".ru"]) (.ok ["USD"]) []
        chargeStd).riskPercentage = 0 ∧
    min (max (jsRound (100 * (3/10 : ℚ))) 0) 100 = 30 ∧
    (calculateRiskScore none (.available [highAmountRuleFrac]) (.ok [".ru"]) (.ok ["USD"]) []
        chargeStd).riskPercentage
      ≠ min (max (jsRound (100 * triggeredWeightSum [highAmountRuleFrac] [".ru"] ["USD"] []
          chargeStd)) 0) 100 := by
  with_unfolding_all decide

/-- Claim C1, amended: the raw sum of triggered weights is itself rounded and
capped at 100 (weights act as percentage points, not fractions of 1): for
nonnegative weights,
`riskPercentage = clamp(round(sum of triggered weights), 0, 100)`, and when
the unclamped sum exceeds 100 the percentage saturates at 100 and
`riskScore = 1` exactly. -/
theorem riskPercentage_clamped_round_of_raw_sum
    (cached : Option (List FraudRule)) (src : RuleSource) (rules : List FraudRule)
    (rd sc : List String) (g : List (String × Value)) (c : ChargeRequest)
    (hload : loadFraudRules cached src = .ok rules)
    (hw : ∀ ru ∈ rules, 0 ≤ ru.score) :
    (calculateRiskScore cached src (.ok rd) (.ok sc) g c).riskPercentage
        = min (max (jsRound (triggeredWeightSum rules rd sc g c)) 0) 100 ∧
    (100 < triggeredWeightSum rules rd sc g c →
      (calculateRiskScore cached src (.ok rd) (.ok sc) g c).riskPercentage = 100 ∧
      (calculateRiskScore cached src (.ok rd) (.ok sc) g c).riskScore = 1) := by
  rw [calculateRiskScore_eq_ok rd sc g c hload]
  have ht : (scoreRules ⟨transactionVariables c, g, rd, sc⟩ rules).1
      = triggeredWeightSum rules rd sc g c := scoreRules_fst_eq _ _
  have ht0 : 0 ≤ triggeredWeightSum rules rd sc g c := ht ▸ scoreRules_fst_nonneg hw
  constructor
  · simp only [calculateRiskScoreOk, ht]
    rw [max_eq_left (jsRound_nonneg ht0)]
  · intro h100
    have hge : (100 : ℤ) ≤ jsRound (triggeredWeightSum rules rd sc g c) :=
      jsRound_ge_100 h100
    constructor
    · simp only [calculateRiskScoreOk, ht]
      exact min_eq_right hge
    · simp only [calculateRiskScoreOk, ht]
      rw [min_eq_right hge]
      norm_num

/-- Witness for `riskPercentage_clamped_round_of_raw_sum` at the integer-weight
high-amount rule and the high-amount charge (the rule triggers, sum `30`,
percentage `30`). -/
theorem riskPercentage_clamped_round_of_raw_sum_witness :
    (loadFraudRules none (.available [ruleHighAmount]) = .ok [ruleHighAmount] ∧
      ∀ ru ∈ [ruleHighAmount], 0 ≤ ru.score) ∧
    (calculateRiskScore none (.available [ruleHighAmount]) (.ok [".ru"]) (.ok ["USD"]) []
        chargeStd).riskPercentage
      = min (max (jsRound (triggeredWeightSum [ruleHighAmount] [".ru"] ["USD"] [] chargeStd)) 0)
          100 :=
  ⟨⟨rfl, by with_unfolding_all decide⟩,
    (riskPercentage_clamped_round_of_raw_sum none (.available [ruleHighAmount]) [ruleHighAmount]
      [".ru"] ["USD"] [] chargeStd rfl (by with_unfolding_all decide)).1⟩

/-- Claim C2, counterexample.  The compiled condition runs in the JavaScript
global scope, so with identical transaction bindings its result can change
with ambient global state: the condition `ambientFlag` evaluates to `true`
when a global `ambientFlag = true` exists and to `false` (caught
`ReferenceError`) when it does not — the boolean result does not depend only
on the six bindings. -/
theorem evaluateCondition_ambient_global_leak :
    evaluateCondition
        ⟨transactionVariables chargeStd, [("ambientFlag", Value.bool true)], [".ru"], ["USD"]⟩
        (.parsed (.var "ambientFlag")) = true ∧
    evaluateCondition ⟨transactionVariables chargeStd, [], [".ru"], ["USD"]⟩
        (.parsed (.var "ambientFlag")) = false := by
  with_unfolding_all decide

/-- Claim C2, amended: the condition is evaluated with exactly the six
bindings as function parameters, but the function body is created in the
JavaScript global scope; only for conditions all of whose free names are
among the bindings is the boolean result independent of ambient global
state (and evaluation of the same condition against an identical context
and identical global environment is deterministic). -/
theorem evaluateCondition_depends_only_on_locals
    (locals g1 g2 : List (String × Value)) (rd sc : List String) (e : Expr)
    (h : ∀ n ∈ freeNames e, (locals.lookup n).isSome) :
    evaluateCondition ⟨locals, g1, rd, sc⟩ (.parsed e) =
      evaluateCondition ⟨locals, g2, rd, sc⟩ (.parsed e) := by
  simp only [evaluateCondition]
  rw [evalExpr_globals_irrelevant h]

/-- Witness for `evaluateCondition_depends_only_on_locals`: the shipped
condition `amount > 5000` only references `amount`, so its result is the same
under a populated and an empty global scope. -/
theorem evaluateCondition_depends_only_on_locals_witness :
    (∀ n ∈ freeNames highAmountCond, ((transactionVariables chargeStd).lookup n).isSome) ∧
    evaluateCondition
        ⟨transactionVariables chargeStd, [("ambientFlag", Value.bool true)], [".ru"], ["USD"]⟩
        (.parsed highAmountCond)
      = evaluateCondition ⟨transactionVariables chargeStd, [], [".ru"], ["USD"]⟩
          (.parsed highAmountCond) :=
  ⟨by decide,
    evaluateCondition_depends_only_on_locals (transactionVariables chargeStd)
      [("ambientFlag", Value.bool true)] [] [".ru"] ["USD"] highAmountCond (by decide)⟩

/-- Claim C3: a rule whose condition evaluation fails (parse error or any
runtime error — `condFails`) is treated as not triggered: the whole risk
result is the same as if the rule were absent, the failing rule's label never
enters `triggeredRules`, and the surrounding rules are scored unchanged.
`calculateRiskScore` is a total function of its inputs, so the failure never
propagates out of it. -/
theorem failing_rule_never_triggers_and_isolated
    (rules₁ rules₂ : List FraudRule) (ru : FraudRule) (rd sc : List String)
    (g : List (String × Value)) (c : ChargeRequest)
    (h : condFails ⟨transactionVariables c, g, rd, sc⟩ ru.condition = true) :
    calculateRiskScore none (.available (rules₁ ++ ru :: rules₂)) (.ok rd) (.ok sc) g c
        = calculateRiskScore none (.available (rules₁ ++ rules₂)) (.ok rd) (.ok sc) g c ∧
    (ru.label ∉ (rules₁ ++ rules₂).map FraudRule.label →
      ru.label ∉ (calculateRiskScore none (.available (rules₁ ++ ru :: rules₂)) (.ok rd) (.ok sc)
        g c).triggeredRules) := by
  have hfalse := evaluateCondition_eq_false_of_condFails h
  rw [calculateRiskScore_eq_ok rd sc g c
      (show loadFraudRules none (.available (rules₁ ++ ru :: rules₂))
          = .ok (rules₁ ++ ru :: rules₂) from rfl),
    calculateRiskScore_eq_ok rd sc g c
      (show loadFraudRules none (.available (rules₁ ++ rules₂))
          = .ok (rules₁ ++ rules₂) from rfl)]
  have hmid := scoreRules_middle hfalse rules₁ rules₂
  constructor
  · simp only [calculateRiskScoreOk, hmid]
  · intro hfresh hmem
    simp only [calculateRiskScoreOk, hmid] at hmem
    exact hfresh (scoreRules_mem_labels hmem)

/-- Witness for `failing_rule_never_triggers_and_isolated`: a malformed rule
between no other rules and the high-amount rule is skipped, and the
high-amount rule still scores. -/
theorem failing_rule_never_triggers_and_isolated_witness :
    condFails ⟨transactionVariables chargeStd, [], [".ru"], ["USD"]⟩ brokenRule.condition
        = true ∧
    calculateRiskScore none (.available ([ruleHighAmount] ++ brokenRule :: []))
        (.ok [".ru"]) (.ok ["USD"]) [] chargeStd
      = calculateRiskScore none (.available ([ruleHighAmount] ++ []))
          (.ok [".ru"]) (.ok ["USD"]) [] chargeStd :=
  ⟨rfl,
    (failing_rule_never_triggers_and_isolated [ruleHighAmount] [] brokenRule [".ru"] ["USD"]
      [] chargeStd rfl).1⟩

/-- Claim C4, counterexample.  The claim says the domain is the substring
after the *last* `@`.  The code takes `split('@')[1]`, the segment after the
*first* `@`: for the email `a@b.ru@c.com` with risky list `[".ru"]` the code
flags the email (segment `b.ru` ends with `.ru`) while the described
behaviour does not (the part after the last `@` is `c.com`). -/
theorem isRiskyDomain_uses_first_at_segment :
    jsIsRiskyDomain [".ru"] "a@b.ru@c.com" = some true ∧
    specIsRiskyDomain [".ru"] "a@b.ru@c.com" = false := by
  decide

/-- Claim C4, amended: the code lower-cases the email and takes
`split('@')[1]` — the segment between the first and second `@` — as the
domain; when the email contains no `@` the predicate throws a `TypeError`
(`undefined.endsWith`) instead of returning `false`, and that error is caught
by the condition evaluator, so a rule calling `isRiskyDomain(email)` still
never triggers for an email without `@`. -/
theorem isRiskyDomain_amended_behavior
    (rd sc : List String) (g : List (String × Value)) (c : ChargeRequest)
    (h : '@' ∉ c.email.data) :
    jsIsRiskyDomain rd c.email = none ∧
    evaluateCondition ⟨transactionVariables c, g, rd, sc⟩
        (.parsed (.app (.var "isRiskyDomain") (.var "email"))) = false := by
  have hmap : '@' ∉ c.email.data.map Char.toLower := not_mem_map_toLower_commat h
  have hnone : jsIsRiskyDomain rd c.email = none := by
    simp only [jsIsRiskyDomain, String.toList]
    rw [jsSplit_no_sep hmap]
    rfl
  refine ⟨hnone, ?_⟩
  have happ : evalExpr ⟨transactionVariables c, g, rd, sc⟩
      (.app (.var "isRiskyDomain") (.var "email"))
      = applyPred ⟨transactionVariables c, g, rd, sc⟩ .risky (.str c.email) := rfl
  have hpred : applyPred ⟨transactionVariables c, g, rd, sc⟩ .risky (.str c.email)
      = .error .typeError := by
    simp only [applyPred]
    rw [hnone]
  simp only [evaluateCondition]
  rw [happ, hpred]

/-- Witness for `isRiskyDomain_amended_behavior` at the `@`-free email
`plainaddress`. -/
theorem isRiskyDomain_amended_behavior_witness :
    '@' ∉ chargeNoAt.email.data ∧
    (jsIsRiskyDomain [".ru"] chargeNoAt.email = none ∧
      evaluateCondition ⟨transactionVariables chargeNoAt, [], [".ru"], ["USD"]⟩
        (.parsed (.app (.var "isRiskyDomain") (.var "email"))) = false) :=
  ⟨by decide, isRiskyDomain_amended_behavior [".ru"] ["USD"] [] chargeNoAt (by decide)⟩

/-- Claim C5: when the scoring body throws anywhere (rule-configuration load,
risky-domain load, or currency load), `calculateRiskScore` catches the error
and returns the zero/safe-default result
`{riskScore := 0, riskPercentage := 0, isHighRisk := false, triggeredRules := []}`;
being a total function, it never propagates an exception. -/
theorem calculateRiskScore_fails_open_to_safe_default
    (cached : Option (List FraudRule)) (src : RuleSource)
    (riskyE currE : Except ScoringError (List String)) (g : List (String × Value))
    (c : ChargeRequest) (err : ScoringError)
    (h : calculateRiskScoreE cached src riskyE currE g c = .error err) :
    calculateRiskScore cached src riskyE currE g c = safeDefaultResult := by
  simp [calculateRiskScore, h]

/-- Witness for `calculateRiskScore_fails_open_to_safe_default`: a missing
rule source makes the body throw, and the result is the safe default. -/
theorem calculateRiskScore_fails_open_to_safe_default_witness :
    calculateRiskScoreE none .missing (.ok [".ru"]) (.ok ["USD"]) [] chargeStd
        = .error .ruleConfig ∧
    calculateRiskScore none .missing (.ok [".ru"]) (.ok ["USD"]) [] chargeStd
        = safeDefaultResult :=
  ⟨rfl,
    calculateRiskScore_fails_open_to_safe_default none .missing (.ok [".ru"]) (.ok ["USD"])
      [] chargeStd .ruleConfig rfl⟩

/-- Claim C6, counterexample.  The claim says a missing/malformed rule source
is fatal to any risk evaluation, with no risk assessment produced.  In the
code the configuration error thrown by `loadFraudRules` is caught by
`calculateRiskScore`'s own `catch`, which returns the zero-risk safe default:
with a missing rule source an assessment is still produced. -/
theorem missing_rules_still_yields_assessment :
    calculateRiskScoreE none .missing (.ok [".ru"]) (.ok ["USD"]) [] chargeNoAt
        = .error .ruleConfig ∧
    calculateRiskScore none .missing (.ok [".ru"]) (.ok ["USD"]) [] chargeNoAt
        = { riskScore := 0, riskPercentage := 0, isHighRisk := false, triggeredRules := [] } :=
  ⟨rfl, rfl⟩

/-- Claim C6, amended: a missing or malformed rule source makes `load` fail
with the configuration error, and `reloadRules` (which discards the cache and
loads again) propagates that error to its callers; `calculateRiskScore`,
however, catches the error and returns the zero-risk safe default, so risk
evaluation fails open instead of being fatal. -/
theorem reloadRules_propagates_configuration_error
    (src : RuleSource) (h : src = RuleSource.missing ∨ src = RuleSource.malformed) :
    reloadRules src = .error .ruleConfig ∧
    (∀ (riskyE currE : Except ScoringError (List String)) (g : List (String × Value))
        (c : ChargeRequest),
      calculateRiskScore none src riskyE currE g c = safeDefaultResult) := by
  rcases h with h | h <;> subst h <;> exact ⟨rfl, fun _ _ _ _ => rfl⟩

/-- Witness for `reloadRules_propagates_configuration_error` at the missing
source. -/
theorem reloadRules_propagates_configuration_error_witness :
    (RuleSource.missing = RuleSource.missing ∨ RuleSource.missing = RuleSource.malformed) ∧
    (reloadRules .missing = .error .ruleConfig ∧
      calculateRiskScore none .missing (.ok [".ru"]) (.ok ["USD"]) [] chargeStd
        = safeDefaultResult) :=
  ⟨Or.inl rfl,
    ⟨(reloadRules_propagates_configuration_error .missing (Or.inl rfl)).1,
      (reloadRules_propagates_configuration_error .missing (Or.inl rfl)).2 (.ok [".ru"])
        (.ok ["USD"]) [] chargeStd⟩⟩

/-- The internal-consistency invariant of a Risk Assessment Result:
`riskScore = riskPercentage / 100`, the percentage an integer in `[0,100]`,
the score in `[0,1]`. -/
def ResultInvariant (r : RiskScoreResult) : Prop :=
  r.riskScore = (r.riskPercentage : ℚ) / 100 ∧ 0 ≤ r.riskPercentage ∧
    r.riskPercentage ≤ 100 ∧ 0 ≤ r.riskScore ∧ r.riskScore ≤ 1

theorem resultInvariant_safeDefault : ResultInvariant safeDefaultResult := by
  refine ⟨?_, ?_, ?_, ?_, ?_⟩ <;> norm_num [safeDefaultResult, ResultInvariant]

theorem resultInvariant_ok (rules : List FraudRule) (rd sc : List String)
    (g : List (String × Value)) (c : ChargeRequest)
    (hrw : ∀ ru ∈ rules, 0 ≤ ru.score) :
    ResultInvariant (calculateRiskScoreOk rules rd sc g c) := by
  have ht0 : 0 ≤ (scoreRules ⟨transactionVariables c, g, rd, sc⟩ rules).1 :=
    scoreRules_fst_nonneg hrw
  have hp0 : 0 ≤ min (jsRound (scoreRules ⟨transactionVariables c, g, rd, sc⟩ rules).1) 100 :=
    le_min (jsRound_nonneg ht0) (by norm_num)
  have hp100 : min (jsRound (scoreRules ⟨transactionVariables c, g, rd, sc⟩ rules).1) 100
      ≤ 100 := min_le_right _ _
  refine ⟨rfl, hp0, hp100, ?_, ?_⟩
  · simp only [calculateRiskScoreOk]
    positivity
  · simp only [calculateRiskScoreOk]
    rw [div_le_one (by norm_num)]
    exact_mod_cast hp100

/-- Claim C7: every result of `calculateRiskScore` (for rule sets with
nonnegative weights, as the data model specifies) satisfies the invariant
`riskScore = riskPercentage / 100` with `riskPercentage` an integer in
`[0,100]` and `riskScore` in `[0,1]`; the percentage is capped by
`Math.min(·, 100)` so the two fields never disagree. -/
theorem riskScore_riskPercentage_invariant
    (cached : Option (List FraudRule)) (src : RuleSource)
    (riskyE currE : Except ScoringError (List String)) (g : List (String × Value))
    (c : ChargeRequest)
    (hw : ∀ rules, loadFraudRules cached src = .ok rules → ∀ ru ∈ rules, 0 ≤ ru.score) :
    ResultInvariant (calculateRiskScore cached src riskyE currE g c) := by
  unfold calculateRiskScore calculateRiskScoreE
  cases hload : loadFraudRules cached src with
  | error e => exact resultInvariant_safeDefault
  | ok rules =>
    cases riskyE with
    | error e => exact resultInvariant_safeDefault
    | ok rd =>
      cases currE with
      | error e => exact resultInvariant_safeDefault
      | ok sc => exact resultInvariant_ok rules rd sc g c (hw rules hload)

/-- Witness for `riskScore_riskPercentage_invariant` at the integer-weight
high-amount rule set. -/
theorem riskScore_riskPercentage_invariant_witness :
    (∀ rules, loadFraudRules none (.available [ruleHighAmount]) = .ok rules →
      ∀ ru ∈ rules, 0 ≤ ru.score) ∧
    ResultInvariant (calculateRiskScore none (.available [ruleHighAmount]) (.ok [".ru"])
      (.ok ["USD"]) [] chargeStd) :=
  ⟨fun rules h => by
    injection h with h
    subst h
    with_unfolding_all decide,
    riskScore_riskPercentage_invariant none (.available [ruleHighAmount]) (.ok [".ru"])
      (.ok ["USD"]) [] chargeStd (fun rules h => by
        injection h with h
        subst h
        with_unfolding_all decide)⟩

theorem explain_cache_hit (gen : GenOutcome) (riskScore : ℚ)
    {cache : List (String × String)} {amount : ℚ} {currency email : String}
    {t : List String} {v : String}
    (h : cache.lookup (generateCacheKey amount currency email t) = some v) :
    generateFraudExplanation gen cache amount currency email riskScore t
      = { text := v, cache := cache, invokedProvider := false } := by
  unfold generateFraudExplanation
  dsimp only []
  rw [h]

/-- Claim C8: the cache key sorts the triggered rules, so any two
permutations of the same triggered-rule list give the same key; hence a
second `generateFraudExplanation` call with permuted rules (and the same
amount/currency/email) hits the cache: it returns the identical string, does
not invoke the provider, leaves the cache unchanged, and the two calls
together grow the cache by at most one entry. -/
theorem explanation_cache_idempotent_up_to_perm
    (gen1 gen2 : GenOutcome) (cache : List (String × String)) (amount : ℚ)
    (currency email : String) (riskScore : ℚ) (t1 t2 : List String)
    (hperm : t1.Perm t2) :
    generateCacheKey amount currency email t1 = generateCacheKey amount currency email t2 ∧
    (generateFraudExplanation gen2
        (generateFraudExplanation gen1 cache amount currency email riskScore t1).cache
        amount currency email riskScore t2).text
      = (generateFraudExplanation gen1 cache amount currency email riskScore t1).text ∧
    (generateFraudExplanation gen2
        (generateFraudExplanation gen1 cache amount currency email riskScore t1).cache
        amount currency email riskScore t2).invokedProvider = false ∧
    (generateFraudExplanation gen2
        (generateFraudExplanation gen1 cache amount currency email riskScore t1).cache
        amount currency email riskScore t2).cache
      = (generateFraudExplanation gen1 cache amount currency email riskScore t1).cache ∧
    (generateFraudExplanation gen1 cache amount currency email riskScore t1).cache.length
      ≤ cache.length + 1 := by
  have hkey : generateCacheKey amount currency email t1
      = generateCacheKey amount currency email t2 := by
    unfold generateCacheKey
    rw [insertionSort_eq_of_perm hperm]
  have hl : (generateFraudExplanation gen1 cache amount currency email riskScore t1).cache.lookup
      (generateCacheKey amount currency email t2)
      = some (generateFraudExplanation gen1 cache amount currency email riskScore t1).text :=
    hkey ▸ explain_lookup_after gen1 cache amount currency email riskScore t1
  have hhit := explain_cache_hit gen2 riskScore hl
  refine ⟨hkey, ?_, ?_, ?_, explain_cache_length_le gen1 cache amount currency email riskScore t1⟩
  · rw [hhit]
  · rw [hhit]
  · rw [hhit]

/-- Witness for `explanation_cache_idempotent_up_to_perm` at a two-rule
permutation with a successful first generation. -/
theorem explanation_cache_idempotent_up_to_perm_witness :
    (["High Amount", "Suspicious Email Domain"] : List String).Perm
        ["Suspicious Email Domain", "High Amount"] ∧
    generateCacheKey 6000 "GBP" "test@example.ru" ["High Amount", "Suspicious Email Domain"]
      = generateCacheKey 6000 "GBP" "test@example.ru"
          ["Suspicious Email Domain", "High Amount"] :=
  ⟨by decide,
    (explanation_cache_idempotent_up_to_perm (.ok "llm text") (.error ()) [] 6000 "GBP"
      "test@example.ru" (9/10) ["High Amount", "Suspicious Email Domain"]
      ["Suspicious Email Domain", "High Amount"] (by decide)).1⟩

/-- Claim C9: on a cache miss where the provider call throws, the returned
string is the locally computed fallback — a function only of
`round(riskScore * 100)` and the triggered rules — and it is cached under the
same fingerprint, so every later call with that fingerprint returns it
without invoking the provider; only after an explicit cache clear is the
provider retried. -/
theorem provider_failure_fallback_cached_sticky
    (cache : List (String × String)) (amount : ℚ) (currency email : String)
    (riskScore : ℚ) (t : List String) (u : Unit)
    (hmiss : cache.lookup (generateCacheKey amount currency email t) = none) :
    (generateFraudExplanation (.error u) cache amount currency email riskScore t).text
        = generateFallbackExplanation riskScore t ∧
    (∀ s' : ℚ, jsRound (s' * 100) = jsRound (riskScore * 100) →
      generateFallbackExplanation s' t = generateFallbackExplanation riskScore t) ∧
    (generateFraudExplanation (.error u) cache amount currency email riskScore t).cache.lookup
        (generateCacheKey amount currency email t)
      = some (generateFraudExplanation (.error u) cache amount currency email riskScore t).text ∧
    (∀ gen' : GenOutcome,
      (generateFraudExplanation gen'
          (generateFraudExplanation (.error u) cache amount currency email riskScore t).cache
          amount currency email riskScore t).text
        = (generateFraudExplanation (.error u) cache amount currency email riskScore t).text ∧
      (generateFraudExplanation gen'
          (generateFraudExplanation (.error u) cache amount currency email riskScore t).cache
          amount currency email riskScore t).invokedProvider = false) ∧
    (∀ u' : Unit,
      (generateFraudExplanation (.error u') clearCache amount currency email riskScore
        t).invokedProvider = true) := by
  have hl := explain_lookup_after (.error u) cache amount currency email riskScore t
  refine ⟨?_, ?_, hl, ?_, ?_⟩
  · simp [generateFraudExplanation, hmiss]
  · intro s' h
    simp only [generateFallbackExplanation, h]
  · intro gen'
    have hhit := explain_cache_hit gen' riskScore hl
    exact ⟨by rw [hhit], by rw [hhit]⟩
  · intro u'
    simp [generateFraudExplanation, clearCache, List.lookup]

/-- Witness for `provider_failure_fallback_cached_sticky` on an empty cache. -/
theorem provider_failure_fallback_cached_sticky_witness :
    (([] : List (String × String)).lookup
        (generateCacheKey 6000 "GBP" "test@example.ru" ["High Amount"]) = none) ∧
    (generateFraudExplanation (.error ()) [] 6000 "GBP" "test@example.ru" (3/10)
        ["High Amount"]).text
      = generateFallbackExplanation (3/10) ["High Amount"] :=
  ⟨rfl,
    (provider_failure_fallback_cached_sticky [] 6000 "GBP" "test@example.ru" (3/10)
      ["High Amount"] () rfl).1⟩

/-- Claim C10: the fingerprint is not injective on triggered-rule sets — the
single label `A|B` and the pair `A`, `B` share a cache key, so a call with
the one set can silently return the cached explanation generated for the
other. -/
theorem cacheKey_not_injective_collision :
    generateCacheKey 100 "USD" "a@b.com" ["A|B"] = generateCacheKey 100 "USD" "a@b.com" ["A", "B"] ∧
    (["A|B"] : List String) ≠ ["A", "B"] ∧
    (generateFraudExplanation (.ok "different text")
        (generateFraudExplanation (.ok "explanation for rules A and B") [] 100 "USD" "a@b.com"
          (1/2) ["A", "B"]).cache
        100 "USD" "a@b.com" (1/2) ["A|B"]).text = "explanation for rules A and B" ∧
    (generateFraudExplanation (.ok "different text")
        (generateFraudExplanation (.ok "explanation for rules A and B") [] 100 "USD" "a@b.com"
          (1/2) ["A", "B"]).cache
        100 "USD" "a@b.com" (1/2) ["A|B"]).invokedProvider = false := by
  with_unfolding_all decide
